import Mathlib

/-!
Shallow embedding of the object/GUI rendering core of the `three-d` fork:
`src/renderer/object/model.rs`, `src/renderer/object/bounding_box.rs` and
`src/gui/egui_gui.rs`.  Scalars (`f32`/`f64` in the source) are modelled as
exact rationals `ℚ`; fallible operations return `Option` (with `none`
modelling a Rust panic or a returned error, as noted at each definition).
-/

namespace ThreeD

/-- Three-component vector (cgmath `Vector3<f32>`), modelled over `ℚ`. -/
structure Vec3 where
  x : ℚ
  y : ℚ
  z : ℚ
deriving DecidableEq, Repr

/-- A 4x4 matrix (cgmath `Matrix4<f32>`), modelled over `ℚ`.  cgmath is
column-major: field `yx` is column `y`, row `x` (the source writes `m.y.x`). -/
structure Mat4 where
  xx : ℚ
  xy : ℚ
  xz : ℚ
  xw : ℚ
  yx : ℚ
  yy : ℚ
  yz : ℚ
  yw : ℚ
  zx : ℚ
  zy : ℚ
  zz : ℚ
  zw : ℚ
  wx : ℚ
  wy : ℚ
  wz : ℚ
  ww : ℚ
deriving DecidableEq, Repr

/-- Embeds `Mat4::identity()`. -/
def Mat4.identity : Mat4 :=
  ⟨1, 0, 0, 0,  0, 1, 0, 0,  0, 0, 1, 0,  0, 0, 0, 1⟩

/-- Embeds `Matrix4::transpose`: entry at column `i`, row `j` moves to column `j`, row `i`. -/
def Mat4.transpose (m : Mat4) : Mat4 where
  xx := m.xx
  xy := m.yx
  xz := m.zx
  xw := m.wx
  yx := m.xy
  yy := m.yy
  yz := m.zy
  yw := m.wy
  zx := m.xz
  zy := m.yz
  zz := m.zz
  zw := m.wz
  wx := m.xw
  wy := m.yw
  wz := m.zw
  ww := m.ww

/-- Matrix product `a * b` (cgmath `Mul for Matrix4`): column `j` of the result
is `a` applied to column `j` of `b`. -/
def Mat4.mul (a b : Mat4) : Mat4 where
  xx := a.xx * b.xx + a.yx * b.xy + a.zx * b.xz + a.wx * b.xw
  xy := a.xy * b.xx + a.yy * b.xy + a.zy * b.xz + a.wy * b.xw
  xz := a.xz * b.xx + a.yz * b.xy + a.zz * b.xz + a.wz * b.xw
  xw := a.xw * b.xx + a.yw * b.xy + a.zw * b.xz + a.ww * b.xw
  yx := a.xx * b.yx + a.yx * b.yy + a.zx * b.yz + a.wx * b.yw
  yy := a.xy * b.yx + a.yy * b.yy + a.zy * b.yz + a.wy * b.yw
  yz := a.xz * b.yx + a.yz * b.yy + a.zz * b.yz + a.wz * b.yw
  yw := a.xw * b.yx + a.yw * b.yy + a.zw * b.yz + a.ww * b.yw
  zx := a.xx * b.zx + a.yx * b.zy + a.zx * b.zz + a.wx * b.zw
  zy := a.xy * b.zx + a.yy * b.zy + a.zy * b.zz + a.wy * b.zw
  zz := a.xz * b.zx + a.yz * b.zy + a.zz * b.zz + a.wz * b.zw
  zw := a.xw * b.zx + a.yw * b.zy + a.zw * b.zz + a.ww * b.zw
  wx := a.xx * b.wx + a.yx * b.wy + a.zx * b.wz + a.wx * b.ww
  wy := a.xy * b.wx + a.yy * b.wy + a.zy * b.wz + a.wy * b.ww
  wz := a.xz * b.wx + a.yz * b.wy + a.zz * b.wz + a.wz * b.ww
  ww := a.xw * b.wx + a.yw * b.wy + a.zw * b.wz + a.ww * b.ww

instance : Mul Mat4 := ⟨Mat4.mul⟩

/-- Determinant of a 3x3 matrix given row by row, used for the 4x4 cofactors. -/
def det3 (a b c d e f g h i : ℚ) : ℚ :=
  a * (e * i - f * h) - b * (d * i - f * g) + c * (d * h - e * g)

/-- Embeds `Matrix4::determinant` (Laplace expansion along the first row; rows/columns
written out from the column-major fields). -/
def Mat4.det (m : Mat4) : ℚ :=
  m.xx * det3 m.yy m.zy m.wy m.yz m.zz m.wz m.yw m.zw m.ww
  - m.yx * det3 m.xy m.zy m.wy m.xz m.zz m.wz m.xw m.zw m.ww
  + m.zx * det3 m.xy m.yy m.wy m.xz m.yz m.wz m.xw m.yw m.ww
  - m.wx * det3 m.xy m.yy m.zy m.xz m.yz m.zz m.xw m.yw m.zw

/-- Embeds `SquareMatrix::invert` for `Matrix4`: `none` when the determinant is zero,
otherwise the adjugate divided by the determinant (entry at row `r`, column `c`
of the inverse is the signed minor obtained by deleting row `c`, column `r`). -/
def Mat4.invert (m : Mat4) : Option Mat4 :=
  let d := m.det
  if d = 0 then none else
    -- row-major entries of m: row 1 = (a b c d'), row 2 = (e f g h), ...
    let a := m.xx; let b := m.yx; let c := m.zx; let dd := m.wx
    let e := m.xy; let f := m.yy; let g := m.zy; let h := m.wy
    let i := m.xz; let j := m.yz; let k := m.zz; let l := m.wz
    let mm := m.xw; let n := m.yw; let o := m.zw; let p := m.ww
    -- Inv[r][c] = (-1)^(r+c) * minor(c,r) / det, written row-major below
    let i11 :=  det3 f g h j k l n o p / d
    let i12 := -det3 b c dd j k l n o p / d
    let i13 :=  det3 b c dd f g h n o p / d
    let i14 := -det3 b c dd f g h j k l / d
    let i21 := -det3 e g h i k l mm o p / d
    let i22 :=  det3 a c dd i k l mm o p / d
    let i23 := -det3 a c dd e g h mm o p / d
    let i24 :=  det3 a c dd e g h i k l / d
    let i31 :=  det3 e f h i j l mm n p / d
    let i32 := -det3 a b dd i j l mm n p / d
    let i33 :=  det3 a b dd e f h mm n p / d
    let i34 := -det3 a b dd e f h i j l / d
    let i41 := -det3 e f g i j k mm n o / d
    let i42 :=  det3 a b c i j k mm n o / d
    let i43 := -det3 a b c e f g mm n o / d
    let i44 :=  det3 a b c e f g i j k / d
    some ⟨i11, i21, i31, i41, i12, i22, i32, i42, i13, i23, i33, i43, i14, i24, i34, i44⟩

/-- Embeds `Mat4::from_translation(v)`. -/
def Mat4.from_translation (v : Vec3) : Mat4 :=
  ⟨1, 0, 0, 0,  0, 1, 0, 0,  0, 0, 1, 0,  v.x, v.y, v.z, 1⟩

/-- Embeds `Mat4::from_nonuniform_scale(sx, sy, sz)`. -/
def Mat4.from_nonuniform_scale (sx sy sz : ℚ) : Mat4 :=
  ⟨sx, 0, 0, 0,  0, sy, 0, 0,  0, 0, sz, 0,  0, 0, 0, 1⟩

/-- Embeds `Mat4::from_angle_z(θ)` with the cosine and sine of `θ` passed explicitly
(the source only uses `θ = 90°`, where they are exactly `0` and `1`). -/
def Mat4.from_angle_z (c s : ℚ) : Mat4 :=
  ⟨c, s, 0, 0,  -s, c, 0, 0,  0, 0, 1, 0,  0, 0, 0, 1⟩

/-- Embeds `Mat4::from_angle_y(θ)` with the cosine and sine of `θ` passed explicitly
(the source only uses `θ = -90°`, where they are exactly `0` and `-1`). -/
def Mat4.from_angle_y (c s : ℚ) : Mat4 :=
  ⟨c, 0, -s, 0,  0, 1, 0, 0,  s, 0, c, 0,  0, 0, 0, 1⟩

/-- Apply a `Mat4` to a point (homogeneous coordinate 1), as the vertex shader
and the AABB corner transform do for the affine matrices of this code base. -/
def Mat4.transform_point (m : Mat4) (p : Vec3) : Vec3 where
  x := m.xx * p.x + m.yx * p.y + m.zx * p.z + m.wx
  y := m.xy * p.x + m.yy * p.y + m.zy * p.z + m.wy
  z := m.xz * p.x + m.yz * p.y + m.zz * p.z + m.wz

/-- Componentwise minimum of two `Vec3`s. -/
def vmin (a b : Vec3) : Vec3 :=
  ⟨min a.x b.x, min a.y b.y, min a.z b.z⟩

/-- Componentwise maximum of two `Vec3`s. -/
def vmax (a b : Vec3) : Vec3 :=
  ⟨max a.x b.x, max a.y b.y, max a.z b.z⟩

/-- Componentwise `≤` on `Vec3`. -/
def vle (a b : Vec3) : Prop :=
  a.x ≤ b.x ∧ a.y ≤ b.y ∧ a.z ≤ b.z

instance (a b : Vec3) : Decidable (vle a b) := by
  unfold vle; infer_instance

/-- Embeds `AxisAlignedBoundingBox`, a min/max corner pair. -/
structure AxisAlignedBoundingBox where
  min : Vec3
  max : Vec3
deriving DecidableEq, Repr

namespace AxisAlignedBoundingBox

/-- Modelled from the spec: `aabb.size()` of the external core crate — the
spec describes the box by "min/max/size", the size being the extent from the
min corner to the max corner on each axis. -/
def size (a : AxisAlignedBoundingBox) : Vec3 :=
  ⟨a.max.x - a.min.x, a.max.y - a.min.y, a.max.z - a.min.z⟩

/-- The 8 corners of an AABB: every combination of min/max coordinates. -/
def corners (a : AxisAlignedBoundingBox) : List Vec3 :=
  [⟨a.min.x, a.min.y, a.min.z⟩, ⟨a.min.x, a.min.y, a.max.z⟩,
   ⟨a.min.x, a.max.y, a.min.z⟩, ⟨a.min.x, a.max.y, a.max.z⟩,
   ⟨a.max.x, a.min.y, a.min.z⟩, ⟨a.max.x, a.min.y, a.max.z⟩,
   ⟨a.max.x, a.max.y, a.min.z⟩, ⟨a.max.x, a.max.y, a.max.z⟩]

/-- Modelled from the spec: `AxisAlignedBoundingBox::transform` of the external
core crate — "recomputes world AABB by applying the 8-corner transform to local
AABB and taking componentwise min/max". -/
def transform (a : AxisAlignedBoundingBox) (t : Mat4) : AxisAlignedBoundingBox :=
  match (a.corners).map (t.transform_point) with
  | [] => a
  | p :: ps => ⟨ps.foldl vmin p, ps.foldl vmax p⟩

end AxisAlignedBoundingBox

/-- Modelled from the spec: `CPUMesh::compute_aabb` of the external core crate —
"computes local AABB by min/max reduction over all vertex positions; fails if
mesh data is empty" (`none` models the empty-mesh failure). -/
def compute_aabb (positions : List Vec3) : Option AxisAlignedBoundingBox :=
  match positions with
  | [] => none
  | p :: ps => some ⟨ps.foldl vmin p, ps.foldl vmax p⟩

/-- Embeds `Cull` mode of the render state. -/
inductive Cull where
  | none
  | back
  | front
  | frontAndBack
deriving DecidableEq, Repr

instance : Inhabited Cull := ⟨Cull.none⟩

/-- Blend multiplier (`BlendMultiplierType`), restricted to the variants this
code base mentions. -/
inductive BlendMultiplierType where
  | zero
  | one
  | srcAlpha
  | oneMinusSrcAlpha
  | dstAlpha
  | oneMinusDstAlpha
deriving DecidableEq, Repr

/-- Blend equation (`BlendEquationType`). -/
inductive BlendEquationType where
  | add
  | subtract
  | reverseSubtract
deriving DecidableEq, Repr

/-- Embeds `BlendParameters` of a render state. -/
structure BlendParameters where
  source_rgb_multiplier : BlendMultiplierType
  destination_rgb_multiplier : BlendMultiplierType
  source_alpha_multiplier : BlendMultiplierType
  destination_alpha_multiplier : BlendMultiplierType
  rgb_equation : BlendEquationType
  alpha_equation : BlendEquationType
deriving DecidableEq, Repr

/-- Modelled from the spec: the blend-equation fields filled in by
`..Default::default()` in the external core crate use the additive equation. -/
def BlendParameters.default_equations : BlendEquationType :=
  BlendEquationType.add

/-- Depth test function (`DepthTestType`). -/
inductive DepthTestType where
  | never
  | less
  | equal
  | lessOrEqual
  | greater
  | notEqual
  | greaterOrEqual
  | always
deriving DecidableEq, Repr

/-- Color/depth write mask (`WriteMask`). -/
structure WriteMask where
  red : Bool
  green : Bool
  blue : Bool
  alpha : Bool
  depth : Bool
deriving DecidableEq, Repr

/-- Embeds `RenderStates`: the declarative per-draw pipeline state. -/
structure RenderStates where
  cull : Cull
  write_mask : WriteMask
  depth_test : DepthTestType
  blend : Option BlendParameters
deriving DecidableEq, Repr

/-- Modelled from the spec: `RenderStates::default()` of the external core crate
— "opaque defaults (depth write+test, no blend)", no culling. -/
def RenderStates.default : RenderStates where
  cull := Cull.none
  write_mask := ⟨true, true, true, true, true⟩
  depth_test := DepthTestType.less
  blend := none

/-- A material as seen by the draw dispatch of `Model`: the render state it
declares via `render_states()`.  (Its fragment-shader source and uniform
bindings go to the external GPU layer and are not observable here.) -/
structure Material where
  render_states : RenderStates
deriving DecidableEq, Repr

/-- The observable arguments of `self.mesh.draw(...)`: the render state passed
to the draw call and the transform/normal-transform uniforms.  (Program,
camera uniform buffer and viewport are external GPU-layer handles.) -/
structure DrawCall where
  render_states : RenderStates
  transformation : Option Mat4
  normal_transformation : Option Mat4
deriving DecidableEq, Repr

/-- Embeds `Model` (src/renderer/object/model.rs): the CPU-observable state.  The GPU
handles (`context`, `mesh`) and the default material are external resources;
the mesh's vertex positions (the data `compute_aabb` reads) are kept. -/
structure Model where
  positions : List Vec3
  cull : Cull
  aabb : AxisAlignedBoundingBox
  aabb_local : AxisAlignedBoundingBox
  transformation : Mat4
  normal_transformation : Mat4
deriving DecidableEq, Repr

namespace Model

/-- Embeds `Model::new`: computes the local AABB from the mesh positions and starts
with identity transforms and default culling; `none` models the `Err` return
for an empty mesh (`InvalidGeometryError`). -/
def new (positions : List Vec3) : Option Model :=
  match compute_aabb positions with
  | Option.none => Option.none
  | Option.some aabb =>
      Option.some
        { positions := positions
          cull := Cull.none
          aabb := aabb
          aabb_local := aabb
          transformation := Mat4.identity
          normal_transformation := Mat4.identity }

/-- Embeds `GeometryMut::set_transformation` for `Model`: stores the matrix, sets the
normal transformation to `transformation.invert().unwrap().transpose()` and
recomputes the world AABB from the local AABB, all in the same call.  `none`
models the `unwrap()` panic when the matrix is not invertible. -/
def set_transformation (m : Model) (transformation : Mat4) : Option Model :=
  match transformation.invert with
  | Option.none => Option.none
  | Option.some inv =>
      Option.some
        { m with
          transformation := transformation
          normal_transformation := inv.transpose
          aabb := m.aabb_local.transform transformation }

/-- Embeds `Shadable::render_forward` for `Model`: the draw call receives
`material.render_states()` unchanged, plus the stored transforms. -/
def render_forward (m : Model) (material : Material) : DrawCall where
  render_states := material.render_states
  transformation := some m.transformation
  normal_transformation := some m.normal_transformation

/-- Embeds `Shadable::render_deferred` for `Model`: the material's render state with
its `cull` field overwritten by `self.cull`, plus the stored transforms. -/
def render_deferred (m : Model) (material : Material) : DrawCall where
  render_states := { material.render_states with cull := m.cull }
  transformation := some m.transformation
  normal_transformation := some m.normal_transformation

end Model

/-- The edge thickness used by `BoundingBox::new_with_material`:
`0.02 * size.x.max(size.y).max(size.z)`. -/
def bounding_box_thickness (aabb : AxisAlignedBoundingBox) : ℚ :=
  (2 / 100) * max (max aabb.size.x aabb.size.y) aabb.size.z

/-- The 12 instance transforms built by `BoundingBox::new_with_material`,
in source order.  `from_angle_z` is applied at `90°` (cosine 0, sine 1) and
`from_angle_y` at `-90°` (cosine 0, sine -1). -/
def bounding_box_transformations (aabb : AxisAlignedBoundingBox) : List Mat4 :=
  let mx := aabb.max
  let mn := aabb.min
  let size := aabb.size
  let thickness := bounding_box_thickness aabb
  [Mat4.from_translation mn * Mat4.from_nonuniform_scale size.x thickness thickness,
   Mat4.from_translation ⟨mn.x, mx.y, mx.z⟩ * Mat4.from_nonuniform_scale size.x thickness thickness,
   Mat4.from_translation ⟨mn.x, mn.y, mx.z⟩ * Mat4.from_nonuniform_scale size.x thickness thickness,
   Mat4.from_translation ⟨mn.x, mx.y, mn.z⟩ * Mat4.from_nonuniform_scale size.x thickness thickness,
   Mat4.from_translation mn * Mat4.from_angle_z 0 1 * Mat4.from_nonuniform_scale size.y thickness thickness,
   Mat4.from_translation ⟨mx.x, mn.y, mx.z⟩ * Mat4.from_angle_z 0 1 * Mat4.from_nonuniform_scale size.y thickness thickness,
   Mat4.from_translation ⟨mn.x, mn.y, mx.z⟩ * Mat4.from_angle_z 0 1 * Mat4.from_nonuniform_scale size.y thickness thickness,
   Mat4.from_translation ⟨mx.x, mn.y, mn.z⟩ * Mat4.from_angle_z 0 1 * Mat4.from_nonuniform_scale size.y thickness thickness,
   Mat4.from_translation mn * Mat4.from_angle_y 0 (-1) * Mat4.from_nonuniform_scale size.z thickness thickness,
   Mat4.from_translation ⟨mx.x, mx.y, mn.z⟩ * Mat4.from_angle_y 0 (-1) * Mat4.from_nonuniform_scale size.z thickness thickness,
   Mat4.from_translation ⟨mn.x, mx.y, mn.z⟩ * Mat4.from_angle_y 0 (-1) * Mat4.from_nonuniform_scale size.z thickness thickness,
   Mat4.from_translation ⟨mx.x, mn.y, mn.z⟩ * Mat4.from_angle_y 0 (-1) * Mat4.from_nonuniform_scale size.z thickness thickness]

/-! ## GUI compositor (src/gui/egui_gui.rs) -/

/-- Button/key state of the windowing layer (`State`). -/
inductive State where
  | pressed
  | released
deriving DecidableEq, Repr

/-- Mouse button of the windowing layer (`MouseButton`). -/
inductive MouseButton where
  | left
  | right
  | middle
deriving DecidableEq, Repr

/-- Modifier state of the windowing layer (`Modifiers`). -/
structure Modifiers where
  alt : State
  ctrl : State
  shift : State
  command : State
deriving DecidableEq, Repr

/-- Key codes of the windowing layer (`crate::Key`); `end` is a Lean keyword,
hence `endKey`. -/
inductive Key where
  | arrowDown | arrowLeft | arrowRight | arrowUp
  | escape | tab | backspace | enter | space
  | insert | delete | home | endKey | pageUp | pageDown
  | num0 | num1 | num2 | num3 | num4 | num5 | num6 | num7 | num8 | num9
  | a | b | c | d | e | f | g | h | i | j | k | l | m
  | n | o | p | q | r | s | t | u | v | w | x | y | z
deriving DecidableEq, Repr

/-- Key codes of the GUI logic (`egui::Key`). -/
inductive EguiKey where
  | arrowDown | arrowLeft | arrowRight | arrowUp
  | escape | tab | backspace | enter | space
  | insert | delete | home | endKey | pageUp | pageDown
  | num0 | num1 | num2 | num3 | num4 | num5 | num6 | num7 | num8 | num9
  | a | b | c | d | e | f | g | h | i | j | k | l | m
  | n | o | p | q | r | s | t | u | v | w | x | y | z
deriving DecidableEq, Repr

/-- Embeds `translate_to_egui_key_code`. -/
def translate_to_egui_key_code : Key → EguiKey
  | Key.arrowDown => EguiKey.arrowDown
  | Key.arrowLeft => EguiKey.arrowLeft
  | Key.arrowRight => EguiKey.arrowRight
  | Key.arrowUp => EguiKey.arrowUp
  | Key.escape => EguiKey.escape
  | Key.tab => EguiKey.tab
  | Key.backspace => EguiKey.backspace
  | Key.enter => EguiKey.enter
  | Key.space => EguiKey.space
  | Key.insert => EguiKey.insert
  | Key.delete => EguiKey.delete
  | Key.home => EguiKey.home
  | Key.endKey => EguiKey.endKey
  | Key.pageUp => EguiKey.pageUp
  | Key.pageDown => EguiKey.pageDown
  | Key.num0 => EguiKey.num0
  | Key.num1 => EguiKey.num1
  | Key.num2 => EguiKey.num2
  | Key.num3 => EguiKey.num3
  | Key.num4 => EguiKey.num4
  | Key.num5 => EguiKey.num5
  | Key.num6 => EguiKey.num6
  | Key.num7 => EguiKey.num7
  | Key.num8 => EguiKey.num8
  | Key.num9 => EguiKey.num9
  | Key.a => EguiKey.a
  | Key.b => EguiKey.b
  | Key.c => EguiKey.c
  | Key.d => EguiKey.d
  | Key.e => EguiKey.e
  | Key.f => EguiKey.f
  | Key.g => EguiKey.g
  | Key.h => EguiKey.h
  | Key.i => EguiKey.i
  | Key.j => EguiKey.j
  | Key.k => EguiKey.k
  | Key.l => EguiKey.l
  | Key.m => EguiKey.m
  | Key.n => EguiKey.n
  | Key.o => EguiKey.o
  | Key.p => EguiKey.p
  | Key.q => EguiKey.q
  | Key.r => EguiKey.r
  | Key.s => EguiKey.s
  | Key.t => EguiKey.t
  | Key.u => EguiKey.u
  | Key.v => EguiKey.v
  | Key.w => EguiKey.w
  | Key.x => EguiKey.x
  | Key.y => EguiKey.y
  | Key.z => EguiKey.z

/-- Frame input events of the windowing layer (`Event`), with their mutable
`handled` flags.  `mouseEnter` stands for the remaining variants that the GUI
code matches with `_`. -/
inductive Event where
  | key (kind : Key) (state : State) (modifiers : Modifiers) (handled : Bool)
  | mouseClick (state : State) (button : MouseButton) (position : ℚ × ℚ)
      (modifiers : Modifiers) (handled : Bool)
  | mouseMotion (delta : ℚ × ℚ) (position : ℚ × ℚ) (handled : Bool)
  | mouseWheel (delta : ℚ × ℚ) (position : ℚ × ℚ) (handled : Bool)
  | mouseLeave
  | mouseEnter
  | text (t : String)
  | modifiersChange (modifiers : Modifiers)
deriving DecidableEq, Repr

/-- Modifier state of the GUI logic (`egui::Modifiers`). -/
structure EguiModifiers where
  alt : Bool
  ctrl : Bool
  shift : Bool
  mac_cmd : Bool
  command : Bool
deriving DecidableEq, Repr

/-- Embeds `egui::Modifiers::default()`: all off. -/
def EguiModifiers.default : EguiModifiers :=
  ⟨false, false, false, false, false⟩

/-- Pointer button of the GUI logic (`egui::PointerButton`). -/
inductive PointerButton where
  | primary
  | secondary
  | middle
deriving DecidableEq, Repr

/-- Input events of the GUI logic (`egui::Event`). -/
inductive EguiEvent where
  | key (key : EguiKey) (pressed : Bool) (modifiers : EguiModifiers)
  | pointerButton (pos : ℚ × ℚ) (button : PointerButton) (pressed : Bool)
      (modifiers : EguiModifiers)
  | pointerMoved (pos : ℚ × ℚ)
  | text (t : String)
  | pointerGone
deriving DecidableEq, Repr

/-- Embeds `map_modifiers`; `macos` models the compile-time `cfg!(target_os = "macos")`. -/
def map_modifiers (macos : Bool) (modifiers : Modifiers) : EguiModifiers where
  alt := modifiers.alt = State.pressed
  ctrl := modifiers.ctrl = State.pressed
  shift := modifiers.shift = State.pressed
  command := modifiers.command = State.pressed
  mac_cmd := macos && modifiers.command = State.pressed

/-- Embeds `FrameInput`: the windowing layer's per-frame record consumed by the GUI. -/
structure FrameInput where
  window_width : ℕ
  window_height : ℕ
  device_pixel_ratio : ℚ
  accumulated_time : ℚ
  events : List Event
deriving DecidableEq, Repr

/-- Embeds `egui::RawInput` as populated by `construct_input_state` (only the fields
that function writes; the rest stay at their defaults in the source). -/
structure RawInput where
  scroll_delta : ℚ × ℚ
  screen_size : ℚ × ℚ
  pixels_per_point : ℚ
  time : ℚ
  modifiers : EguiModifiers
  events : List EguiEvent
deriving DecidableEq, Repr

/-- The body of `construct_input_state`'s event loop: one pass over the frame
events threading the mutable `scroll_delta`, `egui_modifiers` and
`egui_events` of the source. -/
def construct_input_state_loop (macos : Bool) :
    List Event → (ℚ × ℚ) → EguiModifiers → List EguiEvent →
    (ℚ × ℚ) × EguiModifiers × List EguiEvent
  | [], scroll_delta, egui_modifiers, egui_events =>
      (scroll_delta, egui_modifiers, egui_events)
  | Event.key kind state modifiers handled :: rest, scroll_delta, egui_modifiers, egui_events =>
      if handled then
        construct_input_state_loop macos rest scroll_delta egui_modifiers egui_events
      else
        construct_input_state_loop macos rest scroll_delta egui_modifiers
          (egui_events ++ [EguiEvent.key (translate_to_egui_key_code kind)
            (state = State.pressed) (map_modifiers macos modifiers)])
  | Event.mouseClick state button position modifiers handled :: rest,
      scroll_delta, egui_modifiers, egui_events =>
      if handled then
        construct_input_state_loop macos rest scroll_delta egui_modifiers egui_events
      else
        construct_input_state_loop macos rest scroll_delta egui_modifiers
          (egui_events ++ [EguiEvent.pointerButton position
            (match button with
             | MouseButton.left => PointerButton.primary
             | MouseButton.right => PointerButton.secondary
             | MouseButton.middle => PointerButton.middle)
            (state = State.pressed) (map_modifiers macos modifiers)])
  | Event.mouseMotion _ position handled :: rest, scroll_delta, egui_modifiers, egui_events =>
      if handled then
        construct_input_state_loop macos rest scroll_delta egui_modifiers egui_events
      else
        construct_input_state_loop macos rest scroll_delta egui_modifiers
          (egui_events ++ [EguiEvent.pointerMoved position])
  | Event.text t :: rest, scroll_delta, egui_modifiers, egui_events =>
      construct_input_state_loop macos rest scroll_delta egui_modifiers
        (egui_events ++ [EguiEvent.text t])
  | Event.mouseLeave :: rest, scroll_delta, egui_modifiers, egui_events =>
      construct_input_state_loop macos rest scroll_delta egui_modifiers
        (egui_events ++ [EguiEvent.pointerGone])
  | Event.mouseWheel delta _ handled :: rest, scroll_delta, egui_modifiers, egui_events =>
      if handled then
        construct_input_state_loop macos rest scroll_delta egui_modifiers egui_events
      else
        construct_input_state_loop macos rest delta egui_modifiers egui_events
  | Event.modifiersChange modifiers :: rest, _scroll_delta, _egui_modifiers, egui_events =>
      construct_input_state_loop macos rest _scroll_delta
        { alt := modifiers.alt = State.pressed
          ctrl := modifiers.ctrl = State.pressed
          shift := modifiers.shift = State.pressed
          mac_cmd := modifiers.command = State.pressed
          command := modifiers.command = State.pressed }
        egui_events
  | Event.mouseEnter :: rest, scroll_delta, egui_modifiers, egui_events =>
      construct_input_state_loop macos rest scroll_delta egui_modifiers egui_events

/-- Embeds `construct_input_state`: translate the frame's events into `egui::RawInput`
(scroll delta starts at zero, modifiers at default, events empty;
`time = accumulated_time * 0.001`). -/
def construct_input_state (macos : Bool) (frame_input : FrameInput) : RawInput :=
  let r := construct_input_state_loop macos frame_input.events (0, 0)
    EguiModifiers.default []
  { scroll_delta := r.1
    screen_size := ((frame_input.window_width : ℚ), (frame_input.window_height : ℚ))
    pixels_per_point := frame_input.device_pixel_ratio
    time := frame_input.accumulated_time * (1 / 1000)
    modifiers := r.2.1
    events := r.2.2 }

/-- One iteration of the event loop in `GUI::update` (lines 49–67): given
`wants_pointer_input` and `wants_keyboard_input`, mark the event's `handled`
flag where the source does and report whether this iteration set `change`. -/
def update_event_step (wants_pointer wants_keyboard : Bool) (event : Event) :
    Event × Bool :=
  let s1 : Event × Bool :=
    if wants_pointer then
      (match event with
       | Event.mouseClick state button position modifiers _ =>
           Event.mouseClick state button position modifiers true
       | Event.mouseWheel delta position _ => Event.mouseWheel delta position true
       | Event.mouseMotion delta position _ => Event.mouseMotion delta position true
       | other => other,
       true)
    else (event, false)
  let s2 : Event × Bool :=
    if wants_keyboard then
      (match s1.1 with
       | Event.key kind state modifiers _ => Event.key kind state modifiers true
       | other => other,
       true)
    else (s1.1, false)
  (s2.1, s1.2 || s2.2)

/-- The whole event loop of `GUI::update`: marks events and accumulates the
`change` flag (initially `false`). -/
def update_events (wants_pointer wants_keyboard : Bool) :
    List Event → List Event × Bool
  | [] => ([], false)
  | event :: rest =>
      let s := update_event_step wants_pointer wants_keyboard event
      let r := update_events wants_pointer wants_keyboard rest
      (s.1 :: r.1, s.2 || r.2)

/-- The texture-caching state of the `GUI` struct: `texture_version` and the
cached atlas texture.  The texture itself is a GPU resource; we tag it with
the atlas version whose pixels were uploaded into it. -/
structure GuiTextureState where
  texture_version : ℕ
  texture : Option ℕ
deriving DecidableEq, Repr

/-- Embeds `GUI::new` leaves `texture_version: 0, texture: None`. -/
def GuiTextureState.new : GuiTextureState :=
  ⟨0, none⟩

/-- The atlas-rebuild decision inside one `GUI::render` call (lines 82–96):
rebuild when no texture exists yet or the stored version differs from the
atlas version; on rebuild, store the new texture and version.  Returns
whether this call rebuilt the texture, and the state after the call. -/
def render_texture_step (s : GuiTextureState) (atlas_version : ℕ) :
    Bool × GuiTextureState :=
  if s.texture.isNone || s.texture_version ≠ atlas_version then
    (true, { texture_version := atlas_version, texture := some atlas_version })
  else
    (false, s)

/-- A sequence of `GUI::render` calls, one per atlas version observed; returns
the list of per-call rebuild flags and the final state. -/
def render_texture_seq (s : GuiTextureState) :
    List ℕ → List Bool × GuiTextureState
  | [] => ([], s)
  | v :: vs =>
      let r := render_texture_step s v
      let rest := render_texture_seq r.2 vs
      (r.1 :: rest.1, rest.2)

/-- A vertex of an egui paint job (`egui::paint::Vertex`): position, texture
coordinates, and an sRGBA color with `u8` components. -/
structure EguiVertex where
  pos : ℚ × ℚ
  uv : ℚ × ℚ
  color : ℕ × ℕ × ℕ × ℕ
deriving DecidableEq, Repr

/-- A paint-job mesh (`egui::paint::Mesh`): vertices plus `u16`-ish indices
(widened to `u32` by the compositor, modelled as `ℕ`). -/
structure EguiMesh where
  vertices : List EguiVertex
  indices : List ℕ
deriving DecidableEq, Repr

/-- The observable arguments of the draw issued by `GUI::paint_mesh`: the
flattened attribute streams, widened indices, viewport size, screen-size
uniform and the render state.  `width * pixels_per_point as usize` in Rust
casts `pixels_per_point` to `usize` (truncation) before multiplying. -/
structure GuiDrawCall where
  positions : List ℚ
  uvs : List ℚ
  colors : List ℚ
  indices : List ℕ
  viewport_width : ℕ
  viewport_height : ℕ
  screen_size : ℚ × ℚ
  render_states : RenderStates
deriving DecidableEq, Repr

/-- Embeds `GUI::paint_mesh` (lines 104–155), as the draw call it issues. -/
def paint_mesh (width height : ℕ) (pixels_per_point : ℚ) (mesh : EguiMesh) :
    GuiDrawCall where
  positions := (mesh.vertices.map (fun v => [v.pos.1, v.pos.2])).flatten
  uvs := (mesh.vertices.map (fun v => [v.uv.1, v.uv.2])).flatten
  colors := (mesh.vertices.map (fun v =>
    [(v.color.1 : ℚ), (v.color.2.1 : ℚ), (v.color.2.2.1 : ℚ), (v.color.2.2.2 : ℚ)])).flatten
  indices := mesh.indices
  viewport_width := width * (⌊pixels_per_point⌋).toNat
  viewport_height := height * (⌊pixels_per_point⌋).toNat
  screen_size := ((width : ℚ), (height : ℚ))
  render_states :=
    { RenderStates.default with
      blend := some
        { source_rgb_multiplier := BlendMultiplierType.one
          destination_rgb_multiplier := BlendMultiplierType.oneMinusSrcAlpha
          source_alpha_multiplier := BlendMultiplierType.oneMinusDstAlpha
          destination_alpha_multiplier := BlendMultiplierType.one
          rgb_equation := BlendParameters.default_equations
          alpha_equation := BlendParameters.default_equations }
      depth_test := DepthTestType.always }

/-! ## Accessors of `impl Geometry for Model` and sample values -/

/-- Embeds `Geometry::aabb` for `Model` (returns `self.aabb`). -/
def Model.geometry_aabb (m : Model) : AxisAlignedBoundingBox :=
  m.aabb

/-- Embeds `Geometry::transformation` for `Model` (returns `self.transformation`). -/
def Model.geometry_transformation (m : Model) : Mat4 :=
  m.transformation

/-- A concrete freshly constructed model over two vertices, used as the
evaluation point of several witnesses. -/
def sampleModel : Model where
  positions := [⟨0, 0, 0⟩, ⟨2, 4, 6⟩]
  cull := Cull.none
  aabb := ⟨⟨0, 0, 0⟩, ⟨2, 4, 6⟩⟩
  aabb_local := ⟨⟨0, 0, 0⟩, ⟨2, 4, 6⟩⟩
  transformation := Mat4.identity
  normal_transformation := Mat4.identity

/-- A singular (all-zero) matrix. -/
def zeroMat : Mat4 :=
  ⟨0, 0, 0, 0,  0, 0, 0, 0,  0, 0, 0, 0,  0, 0, 0, 0⟩

/-- A sample text payload for a `Text` event. -/
def sampleText : String :=
  "t"

/-- A model whose deprecated object-level `cull` field differs from its
material's cull mode. -/
def cullModel : Model :=
  { sampleModel with cull := Cull.back }

/-- A material whose render state culls front and back faces. -/
def cullMaterial : Material :=
  ⟨{ RenderStates.default with cull := Cull.frontAndBack }⟩

/-- Returns `true` iff the event is not an unhandled pointer event (mouse
click, wheel or motion): its `handled` flag for the pointer kinds, `true`
otherwise. -/
def pointer_marked : Event → Bool
  | Event.mouseClick _ _ _ _ handled => handled
  | Event.mouseWheel _ _ handled => handled
  | Event.mouseMotion _ _ handled => handled
  | _ => true

/-- Returns `true` iff the event is not an unhandled keyboard event. -/
def key_marked : Event → Bool
  | Event.key _ _ _ handled => handled
  | _ => true

/-- The declarative per-event translation implemented by
`construct_input_state`: already-handled key, mouse click, mouse motion and
mouse wheel events translate to nothing; text and mouse-leave events always
translate; wheel and modifier-change events never produce an egui event
(they go to the scroll delta and modifier state instead). -/
def translated_event (macos : Bool) : Event → Option EguiEvent
  | Event.key kind state modifiers handled =>
      if handled then none else
        some (EguiEvent.key (translate_to_egui_key_code kind)
          (state = State.pressed) (map_modifiers macos modifiers))
  | Event.mouseClick state button position modifiers handled =>
      if handled then none else
        some (EguiEvent.pointerButton position
          (match button with
           | MouseButton.left => PointerButton.primary
           | MouseButton.right => PointerButton.secondary
           | MouseButton.middle => PointerButton.middle)
          (state = State.pressed) (map_modifiers macos modifiers))
  | Event.mouseMotion _ position handled =>
      if handled then none else some (EguiEvent.pointerMoved position)
  | Event.text t => some (EguiEvent.text t)
  | Event.mouseLeave => some EguiEvent.pointerGone
  | _ => none

/-- The scroll contribution of one event: the delta of an unhandled mouse
wheel event, nothing otherwise. -/
def wheel_delta : Event → Option (ℚ × ℚ)
  | Event.mouseWheel delta _ handled => if handled then none else some delta
  | _ => none

/-- The delta of the last unhandled mouse-wheel event of the frame, if any. -/
def last_unhandled_wheel_delta : List Event → Option (ℚ × ℚ)
  | [] => none
  | e :: rest =>
      match last_unhandled_wheel_delta rest with
      | some d => some d
      | none => wheel_delta e

/-- The claim's thickness, written as the spec phrases it: `0.02 = 1/50`
times the largest of the three dimensions. -/
def spec_thickness (aabb : AxisAlignedBoundingBox) : ℚ :=
  (1 / 50) * max aabb.size.x (max aabb.size.y aabb.size.z)

/-- The claim's description of the 12 wireframe transforms: for each of the
three axes, a unit primitive scaled to that axis's length with the claimed
cross-section thickness, rotated onto the axis, placed at each of the 4
positions obtained by combining the other two axes' min/max coordinates
(the axis's own coordinate staying at its min). -/
def bounding_box_spec_forms (aabb : AxisAlignedBoundingBox) : List Mat4 :=
  let mx := aabb.max
  let mn := aabb.min
  let size := aabb.size
  let th := spec_thickness aabb
  [Mat4.from_translation mn * Mat4.from_nonuniform_scale size.x th th,
   Mat4.from_translation ⟨mn.x, mn.y, mx.z⟩ * Mat4.from_nonuniform_scale size.x th th,
   Mat4.from_translation ⟨mn.x, mx.y, mn.z⟩ * Mat4.from_nonuniform_scale size.x th th,
   Mat4.from_translation ⟨mn.x, mx.y, mx.z⟩ * Mat4.from_nonuniform_scale size.x th th,
   Mat4.from_translation mn * Mat4.from_angle_z 0 1 * Mat4.from_nonuniform_scale size.y th th,
   Mat4.from_translation ⟨mn.x, mn.y, mx.z⟩ * Mat4.from_angle_z 0 1 * Mat4.from_nonuniform_scale size.y th th,
   Mat4.from_translation ⟨mx.x, mn.y, mn.z⟩ * Mat4.from_angle_z 0 1 * Mat4.from_nonuniform_scale size.y th th,
   Mat4.from_translation ⟨mx.x, mn.y, mx.z⟩ * Mat4.from_angle_z 0 1 * Mat4.from_nonuniform_scale size.y th th,
   Mat4.from_translation mn * Mat4.from_angle_y 0 (-1) * Mat4.from_nonuniform_scale size.z th th,
   Mat4.from_translation ⟨mn.x, mx.y, mn.z⟩ * Mat4.from_angle_y 0 (-1) * Mat4.from_nonuniform_scale size.z th th,
   Mat4.from_translation ⟨mx.x, mn.y, mn.z⟩ * Mat4.from_angle_y 0 (-1) * Mat4.from_nonuniform_scale size.z th th,
   Mat4.from_translation ⟨mx.x, mx.y, mn.z⟩ * Mat4.from_angle_y 0 (-1) * Mat4.from_nonuniform_scale size.z th th]

/-! ## C1 -/

/-- C1: for every model and every matrix `t` whose inversion succeeds,
`set_transformation(t)` stores `t`, sets the normal transformation to the
transpose of the inverse of `t`, and in the same call recomputes the world
AABB as the local AABB transformed by `t`; immediately afterwards the
`Geometry` accessors `aabb()` and `transformation()` return the recomputed
AABB and `t` (the whole update is one synchronous step of the state). -/
theorem set_transformation_stores_and_recomputes (m : Model) (t ti : Mat4)
    (h : t.invert = some ti) :
    m.set_transformation t =
      some { m with
             transformation := t
             normal_transformation := ti.transpose
             aabb := m.aabb_local.transform t } ∧
    ∀ m2, m.set_transformation t = some m2 →
      m2.geometry_transformation = t ∧
      m2.normal_transformation = ti.transpose ∧
      m2.geometry_aabb = m.aabb_local.transform t ∧
      m2.aabb_local = m.aabb_local := by
  have h1 : m.set_transformation t =
      some { m with
             transformation := t
             normal_transformation := ti.transpose
             aabb := m.aabb_local.transform t } := by
    simp [Model.set_transformation, h]
  refine ⟨h1, fun m2 h2 => ?_⟩
  rw [h1] at h2
  cases h2
  exact ⟨rfl, rfl, rfl, rfl⟩

/-- Witness for C1 at the translation by `(1, 2, 3)` applied to `sampleModel`. -/
theorem set_transformation_stores_and_recomputes_witness :
    (Mat4.from_translation ⟨1, 2, 3⟩).invert =
      some (Mat4.from_translation ⟨-1, -2, -3⟩) ∧
    (sampleModel.set_transformation (Mat4.from_translation ⟨1, 2, 3⟩) =
      some { sampleModel with
             transformation := Mat4.from_translation ⟨1, 2, 3⟩
             normal_transformation := (Mat4.from_translation ⟨-1, -2, -3⟩).transpose
             aabb := sampleModel.aabb_local.transform (Mat4.from_translation ⟨1, 2, 3⟩) } ∧
     ∀ m2, sampleModel.set_transformation (Mat4.from_translation ⟨1, 2, 3⟩) = some m2 →
       m2.geometry_transformation = Mat4.from_translation ⟨1, 2, 3⟩ ∧
       m2.normal_transformation = (Mat4.from_translation ⟨-1, -2, -3⟩).transpose ∧
       m2.geometry_aabb = sampleModel.aabb_local.transform (Mat4.from_translation ⟨1, 2, 3⟩) ∧
       m2.aabb_local = sampleModel.aabb_local) :=
  ⟨by norm_num [Mat4.invert, Mat4.det, det3, Mat4.from_translation],
   set_transformation_stores_and_recomputes sampleModel
     (Mat4.from_translation ⟨1, 2, 3⟩) (Mat4.from_translation ⟨-1, -2, -3⟩)
     (by norm_num [Mat4.invert, Mat4.det, det3, Mat4.from_translation])⟩

/-! ## C4 -/

/-- C4 counterexample: the all-zero matrix is not invertible, and
`set_transformation` then panics on `Option::unwrap` of the failed inversion
(modelled by `none`: the call produces no resulting state at all), so no
`InvalidTransformError` — no error value of any kind — is returned to the
immediate caller, contrary to the claim. -/
theorem set_transformation_singular_panics_counterexample :
    sampleModel.set_transformation zeroMat = none := by
  have h : zeroMat.invert = none := by
    norm_num [Mat4.invert, Mat4.det, det3, zeroMat]
  simp [Model.set_transformation, h]

/-- C4 amended: supplying a non-invertible transform matrix makes
`set_transformation` panic (`unwrap` of the failed inversion, modelled as
`none`); the operation returns no error value to its caller. -/
theorem set_transformation_singular_panics (m : Model) (t : Mat4)
    (h : t.invert = none) :
    m.set_transformation t = none := by
  simp [Model.set_transformation, h]

/-- Witness for the amended C4 at `sampleModel` and the zero matrix. -/
theorem set_transformation_singular_panics_witness :
    zeroMat.invert = none ∧ sampleModel.set_transformation zeroMat = none :=
  ⟨by norm_num [Mat4.invert, Mat4.det, det3, zeroMat],
   set_transformation_singular_panics sampleModel zeroMat
     (by norm_num [Mat4.invert, Mat4.det, det3, zeroMat])⟩

/-! ## C5 -/

/-- C5 counterexample: in the forward strategy the render state passed to the
draw call is **not** the material's render state merged with the object-level
cull override — `render_forward` passes `material.render_states()` through
unchanged, so for a model with `cull = Back` and a material with
`cull = FrontAndBack` the dispatched cull mode stays `FrontAndBack`. -/
theorem render_forward_ignores_cull_override_counterexample :
    (cullModel.render_forward cullMaterial).render_states ≠
      { cullMaterial.render_states with cull := cullModel.cull } := by
  decide

/-- C5 amended: only the deferred strategy merges the object-level cull
override into the material's render state (`render_states.cull = self.cull`);
the forward strategy passes the material's render state to the draw call
unchanged. -/
theorem render_dispatch_states (m : Model) (material : Material) :
    (m.render_deferred material).render_states =
      { material.render_states with cull := m.cull } ∧
    (m.render_forward material).render_states = material.render_states :=
  ⟨rfl, rfl⟩

/-! ## C6 -/

/-- C6 counterexample: with `wants_pointer_input = true` and a frame whose
only event is a `Text` event, `update` returns `true` although it consumed no
event — no `handled` flag exists on `Text` and the event list leaves `update`
exactly as it entered, refuting "returns true only if the GUI consumed at
least one of the frame's input events". -/
theorem update_change_without_consumption_counterexample :
    (update_events true false [Event.text sampleText]).2 = true ∧
    (update_events true false [Event.text sampleText]).1 = [Event.text sampleText] :=
  ⟨rfl, rfl⟩

/-- The `change` contribution of one loop iteration of `GUI::update` is
`wants_pointer_input || wants_keyboard_input`, whatever the event is. -/
theorem update_event_step_snd (wants_pointer wants_keyboard : Bool) (e : Event) :
    (update_event_step wants_pointer wants_keyboard e).2 =
      (wants_pointer || wants_keyboard) := by
  cases wants_pointer <;> cases wants_keyboard <;> cases e <;> rfl

/-- C6 amended: `update` returns `true` iff the frame's event list is nonempty
and the GUI wants pointer or keyboard input; in particular it may return
`true` without consuming (marking) any event. -/
theorem update_change_iff (wants_pointer wants_keyboard : Bool)
    (events : List Event) :
    (update_events wants_pointer wants_keyboard events).2 =
      (!events.isEmpty && (wants_pointer || wants_keyboard)) := by
  induction events with
  | nil => rfl
  | cons e rest ih =>
      have h : (update_events wants_pointer wants_keyboard (e :: rest)).2 =
          ((update_event_step wants_pointer wants_keyboard e).2 ||
            (update_events wants_pointer wants_keyboard rest).2) := rfl
      rw [h, update_event_step_snd, ih]
      cases wants_pointer <;> cases wants_keyboard <;> simp

/-! ## C7 -/

/-- One `GUI::update` loop iteration marks the pointer kinds whenever the GUI
wants pointer input, and the key kind whenever it wants keyboard input. -/
theorem update_event_step_marks (wants_pointer wants_keyboard : Bool) (e : Event) :
    (wants_pointer = true →
      pointer_marked (update_event_step wants_pointer wants_keyboard e).1 = true) ∧
    (wants_keyboard = true →
      key_marked (update_event_step wants_pointer wants_keyboard e).1 = true) := by
  cases wants_pointer <;> cases wants_keyboard <;> cases e <;>
    simp [update_event_step, pointer_marked, key_marked]

/-- C7: after `update` returns, every pointer event (mouse click, wheel,
motion) in the frame's event list has `handled = true` whenever the GUI wants
pointer input, and every keyboard event has `handled = true` whenever it
wants keyboard input; since the GUI only consumes events of the kinds it
wants, every consumed event instance is marked handled before any subsequent
consumer of the frame's events can see it. -/
theorem update_marks_consumed_events (wants_pointer wants_keyboard : Bool)
    (events : List Event) (e : Event)
    (he : e ∈ (update_events wants_pointer wants_keyboard events).1) :
    (wants_pointer = true → pointer_marked e = true) ∧
    (wants_keyboard = true → key_marked e = true) := by
  induction events with
  | nil => cases he
  | cons e0 rest ih =>
      have : e = (update_event_step wants_pointer wants_keyboard e0).1 ∨
          e ∈ (update_events wants_pointer wants_keyboard rest).1 := by
        simpa [update_events] using he
      rcases this with h | h
      · rw [h]
        exact update_event_step_marks wants_pointer wants_keyboard e0
      · exact ih h

/-- Witness for C7: a frame with one unhandled mouse click and one unhandled
key press, both wanted by the GUI; both leave `update` marked as handled. -/
theorem update_marks_consumed_events_witness :
    (Event.mouseClick State.pressed MouseButton.left (0, 0)
        ⟨State.released, State.released, State.released, State.released⟩ true ∈
      (update_events true true
        [Event.mouseClick State.pressed MouseButton.left (0, 0)
          ⟨State.released, State.released, State.released, State.released⟩ false,
         Event.key Key.a State.pressed
          ⟨State.released, State.released, State.released, State.released⟩ false]).1) ∧
    pointer_marked (Event.mouseClick State.pressed MouseButton.left (0, 0)
      ⟨State.released, State.released, State.released, State.released⟩ true) = true :=
  ⟨by simp [update_events, update_event_step],
   (update_marks_consumed_events true true
     [Event.mouseClick State.pressed MouseButton.left (0, 0)
       ⟨State.released, State.released, State.released, State.released⟩ false,
      Event.key Key.a State.pressed
       ⟨State.released, State.released, State.released, State.released⟩ false]
     (Event.mouseClick State.pressed MouseButton.left (0, 0)
       ⟨State.released, State.released, State.released, State.released⟩ true)
     (by simp [update_events, update_event_step])).1 rfl⟩

/-! ## C10 -/

/-- The event accumulator of `construct_input_state`'s loop appends exactly
the per-event translations of the unprocessed events. -/
theorem construct_input_state_loop_events (macos : Bool) (events : List Event) :
    ∀ scroll_delta egui_modifiers egui_events,
      (construct_input_state_loop macos events scroll_delta egui_modifiers
        egui_events).2.2 =
        egui_events ++ events.filterMap (translated_event macos) := by
  induction events with
  | nil => intro sd em acc; simp [construct_input_state_loop]
  | cons e rest ih =>
      intro sd em acc
      cases e with
      | key kind state modifiers handled =>
          cases handled <;>
            simp [construct_input_state_loop, translated_event, ih]
      | mouseClick state button position modifiers handled =>
          cases handled <;>
            simp [construct_input_state_loop, translated_event, ih]
      | mouseMotion delta position handled =>
          cases handled <;>
            simp [construct_input_state_loop, translated_event, ih]
      | mouseWheel delta position handled =>
          cases handled <;>
            simp [construct_input_state_loop, translated_event, ih]
      | mouseLeave => simp [construct_input_state_loop, translated_event, ih]
      | mouseEnter => simp [construct_input_state_loop, translated_event, ih]
      | text t => simp [construct_input_state_loop, translated_event, ih]
      | modifiersChange modifiers =>
          simp [construct_input_state_loop, translated_event, ih]

/-- The scroll accumulator of `construct_input_state`'s loop ends at the last
unhandled wheel delta, or at its initial value when there is none (each new
unhandled wheel event overwrites, never accumulates). -/
theorem construct_input_state_loop_scroll (macos : Bool) (events : List Event) :
    ∀ scroll_delta egui_modifiers egui_events,
      (construct_input_state_loop macos events scroll_delta egui_modifiers
        egui_events).1 =
        (last_unhandled_wheel_delta events).getD scroll_delta := by
  induction events with
  | nil => intro sd em acc; simp [construct_input_state_loop, last_unhandled_wheel_delta]
  | cons e rest ih =>
      intro sd em acc
      cases e with
      | key kind state modifiers handled =>
          cases handled <;> cases h : last_unhandled_wheel_delta rest <;>
            simp [construct_input_state_loop, last_unhandled_wheel_delta,
              wheel_delta, ih, h]
      | mouseClick state button position modifiers handled =>
          cases handled <;> cases h : last_unhandled_wheel_delta rest <;>
            simp [construct_input_state_loop, last_unhandled_wheel_delta,
              wheel_delta, ih, h]
      | mouseMotion delta position handled =>
          cases handled <;> cases h : last_unhandled_wheel_delta rest <;>
            simp [construct_input_state_loop, last_unhandled_wheel_delta,
              wheel_delta, ih, h]
      | mouseWheel delta position handled =>
          cases handled <;>
            cases h : last_unhandled_wheel_delta rest <;>
              simp [construct_input_state_loop, last_unhandled_wheel_delta,
                wheel_delta, ih, h]
      | mouseLeave =>
          cases h : last_unhandled_wheel_delta rest <;>
            simp [construct_input_state_loop, last_unhandled_wheel_delta,
              wheel_delta, ih, h]
      | mouseEnter =>
          cases h : last_unhandled_wheel_delta rest <;>
            simp [construct_input_state_loop, last_unhandled_wheel_delta,
              wheel_delta, ih, h]
      | text t =>
          cases h : last_unhandled_wheel_delta rest <;>
            simp [construct_input_state_loop, last_unhandled_wheel_delta,
              wheel_delta, ih, h]
      | modifiersChange modifiers =>
          cases h : last_unhandled_wheel_delta rest <;>
            simp [construct_input_state_loop, last_unhandled_wheel_delta,
              wheel_delta, ih, h]

/-- C10: `construct_input_state` forwards exactly the per-event translations
of the frame's events — events whose `handled` flag is already `true` (key,
mouse click, mouse motion, mouse wheel) are dropped — and passes as scroll
delta the delta of the **last** unhandled wheel event (earlier deltas are
overwritten, not accumulated; zero when there is none). -/
theorem construct_input_state_spec (macos : Bool) (frame_input : FrameInput) :
    (construct_input_state macos frame_input).events =
      frame_input.events.filterMap (translated_event macos) ∧
    (construct_input_state macos frame_input).scroll_delta =
      (last_unhandled_wheel_delta frame_input.events).getD (0, 0) := by
  constructor
  · simpa [construct_input_state] using
      construct_input_state_loop_events macos frame_input.events (0, 0)
        EguiModifiers.default []
  · simpa [construct_input_state] using
      construct_input_state_loop_scroll macos frame_input.events (0, 0)
        EguiModifiers.default []

/-! ## C3 -/

/-- A GUI texture state whose texture was uploaded for atlas version `v`
remains untouched by further renders at version `v`, which all report
"no rebuild". -/
theorem render_texture_seq_stable (v : ℕ) (k : ℕ) :
    render_texture_seq ⟨v, some v⟩ (List.replicate k v) =
      (List.replicate k false, ⟨v, some v⟩) := by
  induction k with
  | zero => rfl
  | succ k ih =>
      simp [List.replicate_succ, render_texture_seq, render_texture_step, ih]

/-- C3: a `render` call rebuilds the atlas texture iff no texture exists yet
or the stored version differs from the atlas version; starting from the
freshly created GUI, `n ≥ 1` consecutive renders at a constant atlas version
`v` rebuild exactly once (the first call), leave the stored version at `v`,
and the first render after the version changes to `v2 ≠ v` rebuilds again and
stores `v2`. -/
theorem gui_atlas_rebuild_iff (s : GuiTextureState) (a : ℕ) (n : ℕ)
    (hn : 1 ≤ n) (v v2 : ℕ) (hv : v2 ≠ v) :
    ((render_texture_step s a).1 =
      (s.texture.isNone || !(s.texture_version == a))) ∧
    ((render_texture_seq GuiTextureState.new (List.replicate n v)).1.count true
      = 1) ∧
    ((render_texture_seq GuiTextureState.new (List.replicate n v)).2 =
      ⟨v, some v⟩) ∧
    ((render_texture_step
        (render_texture_seq GuiTextureState.new (List.replicate n v)).2 v2).1 =
      true) ∧
    ((render_texture_step
        (render_texture_seq GuiTextureState.new (List.replicate n v)).2
        v2).2.texture_version = v2) := by
  obtain ⟨k, rfl⟩ : ∃ k, n = k + 1 :=
    ⟨n - 1, (Nat.succ_pred_eq_of_pos hn).symm⟩
  have hfirst : render_texture_seq GuiTextureState.new (List.replicate (k + 1) v) =
      (true :: List.replicate k false, ⟨v, some v⟩) := by
    simp [List.replicate_succ, render_texture_seq, render_texture_step,
      GuiTextureState.new, render_texture_seq_stable]
  have hv2 : v ≠ v2 := Ne.symm hv
  refine ⟨?_, ?_, ?_, ?_, ?_⟩
  · rcases hx : s.texture with _ | val <;> by_cases hy : s.texture_version = a <;>
      simp [render_texture_step, hx, hy]
  · rw [hfirst]
    simp [List.count_cons, List.count_replicate]
  · rw [hfirst]
  · rw [hfirst]
    simp [render_texture_step, hv2]
  · rw [hfirst]
    simp [render_texture_step, hv2]

/-- Witness for C3 with three renders at version 0 followed by one at 1. -/
theorem gui_atlas_rebuild_iff_witness :
    1 ≤ 3 ∧ (1 : ℕ) ≠ 0 ∧
    (((render_texture_step GuiTextureState.new 0).1 =
       (GuiTextureState.new.texture.isNone ||
         !(GuiTextureState.new.texture_version == 0))) ∧
     ((render_texture_seq GuiTextureState.new (List.replicate 3 0)).1.count true
       = 1) ∧
     ((render_texture_seq GuiTextureState.new (List.replicate 3 0)).2 =
       ⟨0, some 0⟩) ∧
     ((render_texture_step
         (render_texture_seq GuiTextureState.new (List.replicate 3 0)).2 1).1 =
       true) ∧
     ((render_texture_step
         (render_texture_seq GuiTextureState.new (List.replicate 3 0)).2
         1).2.texture_version = 1)) :=
  ⟨by decide, by decide,
   gui_atlas_rebuild_iff GuiTextureState.new 0 3 (by decide) 0 1 (by decide)⟩

/-! ## C8 -/

/-- C8: every draw call issued by `GUI::paint_mesh` uses depth test
always-pass and the blend weights `(src = 1, dst = 1 - srcAlpha)` for RGB and
`(src = 1 - dstAlpha, dst = 1)` for alpha, whatever the paint job and screen
geometry are. -/
theorem paint_mesh_render_states (width height : ℕ) (pixels_per_point : ℚ)
    (mesh : EguiMesh) :
    (paint_mesh width height pixels_per_point mesh).render_states.depth_test =
      DepthTestType.always ∧
    (paint_mesh width height pixels_per_point mesh).render_states.blend =
      some { source_rgb_multiplier := BlendMultiplierType.one
             destination_rgb_multiplier := BlendMultiplierType.oneMinusSrcAlpha
             source_alpha_multiplier := BlendMultiplierType.oneMinusDstAlpha
             destination_alpha_multiplier := BlendMultiplierType.one
             rgb_equation := BlendParameters.default_equations
             alpha_equation := BlendParameters.default_equations } :=
  ⟨rfl, rfl⟩

/-! ## C2 -/

/-- The source's thickness expression equals the spec's reading of it. -/
theorem bounding_box_thickness_eq_spec (aabb : AxisAlignedBoundingBox) :
    bounding_box_thickness aabb = spec_thickness aabb := by
  unfold bounding_box_thickness spec_thickness
  rw [max_assoc]
  norm_num

/-- C2: for every AABB with positive size, the wireframe construction
produces exactly 12 instance transforms; the cross-section thickness is
`0.02` times the largest dimension; a matrix occurs among the produced
transforms iff it is one of the 12 transforms described by the claim (per
axis: scale to that axis's length with the claimed thickness, rotated onto
the axis, at the 4 positions combining the other two axes' min/max); and the
result is a pure function of the AABB's min/max corners alone. -/
theorem bounding_box_wireframe_spec (aabb b : AxisAlignedBoundingBox) (t : Mat4)
    (hpos : 0 < aabb.size.x ∧ 0 < aabb.size.y ∧ 0 < aabb.size.z)
    (hmin : b.min = aabb.min) (hmax : b.max = aabb.max) :
    (bounding_box_transformations aabb).length = 12 ∧
    bounding_box_thickness aabb = spec_thickness aabb ∧
    (t ∈ bounding_box_transformations aabb ↔ t ∈ bounding_box_spec_forms aabb) ∧
    bounding_box_transformations b = bounding_box_transformations aabb := by
  have hb : b = aabb := by
    cases b; cases aabb; simp_all
  refine ⟨rfl, bounding_box_thickness_eq_spec aabb, ?_, by rw [hb]⟩
  simp only [bounding_box_transformations, bounding_box_spec_forms,
    bounding_box_thickness_eq_spec, List.mem_cons, List.not_mem_nil, or_false]
  tauto

/-- Witness for C2 at the AABB with min `(0,0,0)`, max `(2,4,6)` and the
first produced transform. -/
theorem bounding_box_wireframe_spec_witness :
    (0 < (AxisAlignedBoundingBox.mk ⟨0, 0, 0⟩ ⟨2, 4, 6⟩).size.x ∧
     0 < (AxisAlignedBoundingBox.mk ⟨0, 0, 0⟩ ⟨2, 4, 6⟩).size.y ∧
     0 < (AxisAlignedBoundingBox.mk ⟨0, 0, 0⟩ ⟨2, 4, 6⟩).size.z) ∧
    ((bounding_box_transformations ⟨⟨0, 0, 0⟩, ⟨2, 4, 6⟩⟩).length = 12 ∧
     bounding_box_thickness ⟨⟨0, 0, 0⟩, ⟨2, 4, 6⟩⟩ =
       spec_thickness ⟨⟨0, 0, 0⟩, ⟨2, 4, 6⟩⟩ ∧
     (Mat4.from_translation ⟨0, 0, 0⟩ *
        Mat4.from_nonuniform_scale
          (AxisAlignedBoundingBox.mk ⟨0, 0, 0⟩ ⟨2, 4, 6⟩).size.x
          (bounding_box_thickness ⟨⟨0, 0, 0⟩, ⟨2, 4, 6⟩⟩)
          (bounding_box_thickness ⟨⟨0, 0, 0⟩, ⟨2, 4, 6⟩⟩) ∈
        bounding_box_transformations ⟨⟨0, 0, 0⟩, ⟨2, 4, 6⟩⟩ ↔
      Mat4.from_translation ⟨0, 0, 0⟩ *
        Mat4.from_nonuniform_scale
          (AxisAlignedBoundingBox.mk ⟨0, 0, 0⟩ ⟨2, 4, 6⟩).size.x
          (bounding_box_thickness ⟨⟨0, 0, 0⟩, ⟨2, 4, 6⟩⟩)
          (bounding_box_thickness ⟨⟨0, 0, 0⟩, ⟨2, 4, 6⟩⟩) ∈
        bounding_box_spec_forms ⟨⟨0, 0, 0⟩, ⟨2, 4, 6⟩⟩) ∧
     bounding_box_transformations ⟨⟨0, 0, 0⟩, ⟨2, 4, 6⟩⟩ =
       bounding_box_transformations ⟨⟨0, 0, 0⟩, ⟨2, 4, 6⟩⟩) :=
  ⟨by norm_num [AxisAlignedBoundingBox.size],
   bounding_box_wireframe_spec ⟨⟨0, 0, 0⟩, ⟨2, 4, 6⟩⟩ ⟨⟨0, 0, 0⟩, ⟨2, 4, 6⟩⟩ _
     (by norm_num [AxisAlignedBoundingBox.size]) rfl rfl⟩

/-! ## C9 -/

theorem vle_refl (a : Vec3) : vle a a :=
  ⟨le_refl _, le_refl _, le_refl _⟩

theorem vle_trans {a b c : Vec3} (h1 : vle a b) (h2 : vle b c) : vle a c :=
  ⟨le_trans h1.1 h2.1, le_trans h1.2.1 h2.2.1, le_trans h1.2.2 h2.2.2⟩

theorem vle_vmin_left (a b : Vec3) : vle (vmin a b) a :=
  ⟨min_le_left _ _, min_le_left _ _, min_le_left _ _⟩

theorem vle_vmin_right (a b : Vec3) : vle (vmin a b) b :=
  ⟨min_le_right _ _, min_le_right _ _, min_le_right _ _⟩

theorem vle_vmax_left (a b : Vec3) : vle a (vmax a b) :=
  ⟨le_max_left _ _, le_max_left _ _, le_max_left _ _⟩

theorem vle_vmax_right (a b : Vec3) : vle b (vmax a b) :=
  ⟨le_max_right _ _, le_max_right _ _, le_max_right _ _⟩

/-- A componentwise-min fold is a lower bound of the start value and every
list element. -/
theorem foldl_vmin_le (ps : List Vec3) :
    ∀ p0 p, p ∈ p0 :: ps → vle (ps.foldl vmin p0) p := by
  induction ps with
  | nil =>
      intro p0 p hp
      rcases List.mem_singleton.mp hp with rfl
      exact vle_refl p
  | cons q ps ih =>
      intro p0 p hp
      cases hp with
      | head =>
          exact vle_trans (ih (vmin _ q) _ (List.mem_cons_self _ _))
            (vle_vmin_left _ q)
      | tail _ h =>
          cases h with
          | head =>
              exact vle_trans (ih (vmin p0 _) _ (List.mem_cons_self _ _))
                (vle_vmin_right p0 _)
          | tail _ h2 =>
              exact ih (vmin p0 q) p (List.mem_cons_of_mem _ h2)

/-- A componentwise-max fold is an upper bound of the start value and every
list element. -/
theorem foldl_vmax_ge (ps : List Vec3) :
    ∀ p0 p, p ∈ p0 :: ps → vle p (ps.foldl vmax p0) := by
  induction ps with
  | nil =>
      intro p0 p hp
      rcases List.mem_singleton.mp hp with rfl
      exact vle_refl p
  | cons q ps ih =>
      intro p0 p hp
      cases hp with
      | head =>
          exact vle_trans (vle_vmax_left _ q)
            (ih (vmax _ q) _ (List.mem_cons_self _ _))
      | tail _ h =>
          cases h with
          | head =>
              exact vle_trans (vle_vmax_right p0 _)
                (ih (vmax p0 _) _ (List.mem_cons_self _ _))
          | tail _ h2 =>
              exact ih (vmax p0 q) p (List.mem_cons_of_mem _ h2)

/-- Each coordinate of a componentwise-min fold is attained by the start
value or some list element. -/
theorem foldl_vmin_mem (f : Vec3 → ℚ)
    (hf : ∀ a b, f (vmin a b) = min (f a) (f b)) (ps : List Vec3) :
    ∀ p0, f (ps.foldl vmin p0) ∈ (p0 :: ps).map f := by
  induction ps with
  | nil => intro p0; simp
  | cons q ps ih =>
      intro p0
      have h := ih (vmin p0 q)
      rw [List.map_cons] at h
      rcases List.mem_cons.mp h with h0 | h0
      · rw [hf] at h0
        rcases min_choice (f p0) (f q) with hc | hc
        · rw [List.foldl_cons, List.map_cons, List.map_cons]
          exact List.mem_cons.mpr (Or.inl (by rw [h0, hc]))
        · rw [List.foldl_cons, List.map_cons, List.map_cons]
          exact List.mem_cons.mpr (Or.inr (List.mem_cons.mpr
            (Or.inl (by rw [h0, hc]))))
      · rw [List.foldl_cons, List.map_cons, List.map_cons]
        exact List.mem_cons.mpr (Or.inr (List.mem_cons.mpr (Or.inr h0)))

/-- Each coordinate of a componentwise-max fold is attained by the start
value or some list element. -/
theorem foldl_vmax_mem (f : Vec3 → ℚ)
    (hf : ∀ a b, f (vmax a b) = max (f a) (f b)) (ps : List Vec3) :
    ∀ p0, f (ps.foldl vmax p0) ∈ (p0 :: ps).map f := by
  induction ps with
  | nil => intro p0; simp
  | cons q ps ih =>
      intro p0
      have h := ih (vmax p0 q)
      rw [List.map_cons] at h
      rcases List.mem_cons.mp h with h0 | h0
      · rw [hf] at h0
        rcases max_choice (f p0) (f q) with hc | hc
        · rw [List.foldl_cons, List.map_cons, List.map_cons]
          exact List.mem_cons.mpr (Or.inl (by rw [h0, hc]))
        · rw [List.foldl_cons, List.map_cons, List.map_cons]
          exact List.mem_cons.mpr (Or.inr (List.mem_cons.mpr
            (Or.inl (by rw [h0, hc]))))
      · rw [List.foldl_cons, List.map_cons, List.map_cons]
        exact List.mem_cons.mpr (Or.inr (List.mem_cons.mpr (Or.inr h0)))

/-- The identity matrix fixes every point. -/
theorem transform_point_identity (p : Vec3) :
    Mat4.identity.transform_point p = p := by
  cases p
  simp [Mat4.transform_point, Mat4.identity]

/-- Transforming a well-formed AABB (min ≤ max componentwise) by the identity
matrix reproduces it: the componentwise min/max over its 8 corners are its
min/max corners. -/
theorem aabb_transform_identity (a : AxisAlignedBoundingBox)
    (h : vle a.min a.max) : a.transform Mat4.identity = a := by
  obtain ⟨mn, mx⟩ := a
  obtain ⟨x1, y1, z1⟩ := mn
  obtain ⟨x2, y2, z2⟩ := mx
  obtain ⟨hx, hy, hz⟩ := h
  simp_all [AxisAlignedBoundingBox.transform, AxisAlignedBoundingBox.corners,
    transform_point_identity, vmin, vmax, min_self, max_self,
    min_eq_left, max_eq_right]

/-- C9: for a mesh with at least one vertex, the constructed model's local
AABB bounds every position and each of its min/max coordinates is attained by
some position (the componentwise min/max of the positions); the world AABB of
a newly constructed model equals its local AABB; and setting the identity
transform on any model with a well-formed local AABB yields a world AABB
equal to the local AABB. -/
theorem model_aabb_componentwise_minmax (positions : List Vec3)
    (m n n2 : Model) (p : Vec3)
    (hm : Model.new positions = some m) (hp : p ∈ positions)
    (hn : vle n.aabb_local.min n.aabb_local.max)
    (hid : n.set_transformation Mat4.identity = some n2) :
    (vle m.aabb_local.min p ∧ vle p m.aabb_local.max) ∧
    (m.aabb_local.min.x ∈ positions.map Vec3.x ∧
     m.aabb_local.min.y ∈ positions.map Vec3.y ∧
     m.aabb_local.min.z ∈ positions.map Vec3.z ∧
     m.aabb_local.max.x ∈ positions.map Vec3.x ∧
     m.aabb_local.max.y ∈ positions.map Vec3.y ∧
     m.aabb_local.max.z ∈ positions.map Vec3.z) ∧
    m.aabb = m.aabb_local ∧
    n2.aabb = n.aabb_local := by
  have hinv : Mat4.identity.invert = some Mat4.identity := by
    norm_num [Mat4.invert, Mat4.det, det3, Mat4.identity]
  have hn2 : n2.aabb = n.aabb_local := by
    rw [Model.set_transformation, hinv] at hid
    cases hid
    exact aabb_transform_identity n.aabb_local hn
  cases positions with
  | nil => cases hm
  | cons p0 ps =>
      have hm2 : m = { positions := p0 :: ps
                       cull := Cull.none
                       aabb := ⟨ps.foldl vmin p0, ps.foldl vmax p0⟩
                       aabb_local := ⟨ps.foldl vmin p0, ps.foldl vmax p0⟩
                       transformation := Mat4.identity
                       normal_transformation := Mat4.identity } := by
        rw [Model.new, compute_aabb] at hm
        cases hm
        rfl
      subst hm2
      refine ⟨⟨foldl_vmin_le ps p0 p hp, foldl_vmax_ge ps p0 p hp⟩,
        ⟨?_, ?_, ?_, ?_, ?_, ?_⟩, rfl, hn2⟩
      · exact foldl_vmin_mem Vec3.x (fun a b => rfl) ps p0
      · exact foldl_vmin_mem Vec3.y (fun a b => rfl) ps p0
      · exact foldl_vmin_mem Vec3.z (fun a b => rfl) ps p0
      · exact foldl_vmax_mem Vec3.x (fun a b => rfl) ps p0
      · exact foldl_vmax_mem Vec3.y (fun a b => rfl) ps p0
      · exact foldl_vmax_mem Vec3.z (fun a b => rfl) ps p0

/-- Witness for C9 at the two-vertex mesh `[(0,0,0), (2,4,6)]` (its model is
`sampleModel`, on which the identity transform is also re-set). -/
theorem model_aabb_componentwise_minmax_witness :
    (Model.new [⟨0, 0, 0⟩, ⟨2, 4, 6⟩] = some sampleModel) ∧
    ((⟨2, 4, 6⟩ : Vec3) ∈ [(⟨0, 0, 0⟩ : Vec3), ⟨2, 4, 6⟩]) ∧
    vle sampleModel.aabb_local.min sampleModel.aabb_local.max ∧
    (sampleModel.set_transformation Mat4.identity = some sampleModel) ∧
    ((vle sampleModel.aabb_local.min ⟨2, 4, 6⟩ ∧
      vle (⟨2, 4, 6⟩ : Vec3) sampleModel.aabb_local.max) ∧
     (sampleModel.aabb_local.min.x ∈ [(⟨0, 0, 0⟩ : Vec3), ⟨2, 4, 6⟩].map Vec3.x ∧
      sampleModel.aabb_local.min.y ∈ [(⟨0, 0, 0⟩ : Vec3), ⟨2, 4, 6⟩].map Vec3.y ∧
      sampleModel.aabb_local.min.z ∈ [(⟨0, 0, 0⟩ : Vec3), ⟨2, 4, 6⟩].map Vec3.z ∧
      sampleModel.aabb_local.max.x ∈ [(⟨0, 0, 0⟩ : Vec3), ⟨2, 4, 6⟩].map Vec3.x ∧
      sampleModel.aabb_local.max.y ∈ [(⟨0, 0, 0⟩ : Vec3), ⟨2, 4, 6⟩].map Vec3.y ∧
      sampleModel.aabb_local.max.z ∈ [(⟨0, 0, 0⟩ : Vec3), ⟨2, 4, 6⟩].map Vec3.z) ∧
     sampleModel.aabb = sampleModel.aabb_local ∧
     sampleModel.aabb = sampleModel.aabb_local) := by
  have hm : Model.new [⟨0, 0, 0⟩, ⟨2, 4, 6⟩] = some sampleModel := by
    norm_num [Model.new, compute_aabb, vmin, vmax, sampleModel, min_def, max_def]
  have hp : (⟨2, 4, 6⟩ : Vec3) ∈ [(⟨0, 0, 0⟩ : Vec3), ⟨2, 4, 6⟩] := by simp
  have hn : vle sampleModel.aabb_local.min sampleModel.aabb_local.max := by
    norm_num [vle, sampleModel]
  have hid : sampleModel.set_transformation Mat4.identity = some sampleModel := by
    norm_num [Model.set_transformation, Mat4.invert, Mat4.det, det3,
      Mat4.identity, Mat4.transpose, AxisAlignedBoundingBox.transform,
      AxisAlignedBoundingBox.corners, Mat4.transform_point, vmin, vmax,
      sampleModel, min_def, max_def]
  exact ⟨hm, hp, hn, hid,
    model_aabb_componentwise_minmax [⟨0, 0, 0⟩, ⟨2, 4, 6⟩]
      sampleModel sampleModel sampleModel ⟨2, 4, 6⟩ hm hp hn hid⟩

end ThreeD
